import Mathlib

/-!
Verification of the gesture-driven orbit camera and polaroid placement logic
of the tree scene (src/components/Experience.tsx, src/components/Polaroids.tsx).

The per-frame float arithmetic of the source is embedded over an arbitrary
linear ordered field so that every definition is a computable function; the
transcendental constants and functions of the source (Math.PI, Math.sin,
Math.cos) are passed as parameters and instantiated with Real.pi, Real.sin,
Real.cos in the theorems.  Math.random draws are modelled by an explicit
stream rand : Nat -> field, read at a fixed index per draw, mirroring the
creation-time randomness of the source.
-/

namespace Tree1205

/-- The normalized hand sample delivered by the gesture collaborator:
handPosition of Experience.tsx, fields x, y, detected. -/
structure HandSample (R : Type*) where
  x : R
  y : R
  detected : Bool
  deriving Repr

/-- The orbital state read back from the controls each frame in
Experience.tsx useFrame: getAzimuthalAngle, getPolarAngle, getDistance. -/
structure CameraState (R : Type*) where
  azimuth : R
  polar : R
  distance : R
  deriving Repr

/-- A three-component vector, standing in for THREE.Vector3. -/
@[ext]
structure Vec3 (R : Type*) where
  x : R
  y : R
  z : R
  deriving Repr

/-- The two scene arrangements, src/types TreeMode. -/
inductive TreeMode where
  | FORMED
  | CHAOS
  deriving Repr, DecidableEq

variable {R : Type*} [LinearOrderedField R]

/-- Experience.tsx line 41: targetAzimuth = (handPosition.x - 0.5) * Math.PI * 3. -/
def targetAzimuth (pi x : R) : R := (x - 0.5) * pi * 3

/-- Experience.tsx line 45: adjustedY = (handPosition.y - 0.2) * 2.0. -/
def adjustedY (y : R) : R := (y - 0.2) * 2.0

/-- Experience.tsx line 46: clampedY = Math.max(0, Math.min(1, adjustedY)). -/
def clampedY (y : R) : R := max 0 (min 1 (adjustedY y))

/-- Experience.tsx line 49: minPolar = Math.PI / 4. -/
def minPolar (pi : R) : R := pi / 4

/-- Experience.tsx line 50: maxPolar = Math.PI / 1.8. -/
def maxPolar (pi : R) : R := pi / 1.8

/-- Experience.tsx line 51: targetPolar = minPolar + clampedY * (maxPolar - minPolar). -/
def targetPolar (pi y : R) : R := minPolar pi + clampedY y * (maxPolar pi - minPolar pi)

/-- Experience.tsx lines 58-60: azimuthDiff = targetAzimuth - currentAzimuth,
then subtract 2*pi if above pi, then add 2*pi if below -pi. -/
def azimuthDiff (pi target current : R) : R :=
  let d0 := target - current
  let d1 := if d0 > pi then d0 - pi * 2 else d0
  if d1 < -pi then d1 + pi * 2 else d1

/-- Experience.tsx line 63: lerpSpeed = 8. -/
def lerpSpeed : R := 8

/-- Experience.tsx line 71: minDistance = 8. -/
def minDistance : R := 8

/-- Experience.tsx line 72: maxDistance = 30. -/
def maxDistance : R := 30

/-- Experience.tsx line 73: normalizedScale = Math.max(0.3, Math.min(2.5, handScale)). -/
def normalizedScale (handScale : R) : R := max 0.3 (min 2.5 handScale)

/-- Experience.tsx line 75: targetDistance =
maxDistance - (normalizedScale - 0.3) / (2.5 - 0.3) * (maxDistance - minDistance). -/
def targetDistance (handScale : R) : R :=
  maxDistance - (normalizedScale handScale - 0.3) / (2.5 - 0.3) * (maxDistance - minDistance)

/-- Experience.tsx line 79: distanceLerpSpeed = 5. -/
def distanceLerpSpeed : R := 5

/-- One execution of the Experience.tsx useFrame body (lines 32-94) on the
orbital state: when the hand is detected the three spherical parameters are
eased toward their targets, otherwise the body is skipped and the state is
left untouched. -/
def experienceStep (pi : R) (s : CameraState R) (hand : HandSample R)
    (handScale delta : R) : CameraState R :=
  if hand.detected then
    { azimuth := s.azimuth + azimuthDiff pi (targetAzimuth pi hand.x) s.azimuth * delta * lerpSpeed
      polar := s.polar + (targetPolar pi hand.y - s.polar) * delta * lerpSpeed
      distance := s.distance + (targetDistance handScale - s.distance) * delta * distanceLerpSpeed }
  else s

/-- Experience.tsx line 83: targetY = 4, the tree center height. -/
def targetY : R := 4

/-- Experience.tsx lines 85-90: the camera position reconstructed from
spherical coordinates around the focal height. -/
def cameraPosition (sin cos : R → R) (s : CameraState R) : Vec3 R :=
  { x := s.distance * sin s.polar * sin s.azimuth
    y := targetY + s.distance * cos s.polar
    z := s.distance * sin s.polar * cos s.azimuth }

/-- Experience.tsx line 91: controls.target.set(0, targetY, 0). -/
def lookAtTarget : Vec3 R := { x := 0, y := targetY, z := 0 }

/-- A whole sequence of frames fed to the Experience.tsx useFrame body, each
frame carrying its hand sample, hand scale and time delta. -/
def runFrames (pi : R) (s : CameraState R) : List (HandSample R × R × R) → CameraState R
  | [] => s
  | frame :: rest => runFrames pi (experienceStep pi s frame.1 frame.2.1 frame.2.2) rest

/-- Polaroids.tsx line 95: minPhotoScale = 0.8. -/
def minPhotoScale : R := 0.8

/-- Polaroids.tsx line 96: maxPhotoScale = 2.0. -/
def maxPhotoScale : R := 2.0

/-- Polaroids.tsx lines 94-97: the per-object scale derived from the hand
scale, photoScale = minPhotoScale + (normalizedScale - 0.3) / (2.5 - 0.3) *
(maxPhotoScale - minPhotoScale). -/
def photoScale (handScale : R) : R :=
  minPhotoScale + (normalizedScale handScale - 0.3) / (2.5 - 0.3) * (maxPhotoScale - minPhotoScale)

/-- The per-photo record built by the Polaroids.tsx photoData memo,
interface PhotoData. -/
structure PhotoData (R : Type*) where
  id : ℕ
  url : String
  chaosPos : Vec3 R
  targetPos : Vec3 R
  speed : R

/-- One iteration of the Polaroids.tsx photoData loop (lines 187-229): the
formed position on the cone via the golden-angle spiral, the chaos position
spread around the camera, and the per-object speed.  The three Math.random()
calls of iteration i are read from the stream at indices 3i, 3i+1, 3i+2. -/
def photoDataEntry (pi : R) (sin cos : R → R) (rand : ℕ → R)
    (count i : ℕ) (url : String) : PhotoData R :=
  let yNorm : R := 0.2 + ((i : R) / (count : R)) * 0.6
  let y := yNorm * 9
  let r := 5.0 * (1 - yNorm) + 0.8
  let theta := (i : R) * 2.39996
  let angle := ((i : R) / (count : R)) * pi * 2
  let distance := 3 + rand (3 * i) * 4
  let heightSpread := (rand (3 * i + 1) - 0.5) * 8
  { id := i
    url := url
    chaosPos := { x := distance * cos angle * 1.2
                  y := 5 + heightSpread
                  z := 20 - 4 + distance * sin angle * 0.5 }
    targetPos := { x := r * cos theta, y := y, z := r * sin theta }
    speed := 0.8 + rand (3 * i + 2) * 1.5 }

/-- The Polaroids.tsx photoData memo (lines 175-231): empty when no photos
are uploaded, otherwise one complete record per uploaded photo. -/
def photoData (pi : R) (sin cos : R → R) (rand : ℕ → R)
    (uploadedPhotos : List String) : List (PhotoData R) :=
  if uploadedPhotos.length = 0 then []
  else
    (List.range uploadedPhotos.length).map fun i =>
      photoDataEntry pi sin cos rand uploadedPhotos.length i (uploadedPhotos.getD i "")

/-- One component of THREE.Vector3.lerp(target, step): p + (target - p) * step. -/
def lerpCoord (p target step : R) : R := p + (target - p) * step

/-- THREE.Vector3.lerp(target, step), componentwise. -/
def lerpVec (p target : Vec3 R) (step : R) : Vec3 R :=
  { x := lerpCoord p.x target.x step
    y := lerpCoord p.y target.y step
    z := lerpCoord p.z target.z step }

/-- Polaroids.tsx line 85: the target selected by the mode,
isFormed ? data.targetPos : data.chaosPos. -/
def selectTarget (mode : TreeMode) (d : PhotoData R) : Vec3 R :=
  match mode with
  | TreeMode.FORMED => d.targetPos
  | TreeMode.CHAOS => d.chaosPos

/-- n iterations of the PolaroidItem useFrame position update
(Polaroids.tsx lines 85-90) with the mode held fixed and a fixed per-frame
step = delta * data.speed: position.lerp(targetPos, step). -/
def animateFrames (mode : TreeMode) (d : PhotoData R) (step : R) (p : Vec3 R) : ℕ → Vec3 R
  | 0 => p
  | n + 1 => lerpVec (animateFrames mode d step p n) (selectTarget mode d) step

/-- A concrete photo record with unit speed and the origin as both stored
positions, used to instantiate theorems at a specific object. -/
def unitPhoto : PhotoData ℝ :=
  { id := 0
    url := ""
    chaosPos := { x := 0, y := 0, z := 0 }
    targetPos := { x := 0, y := 0, z := 0 }
    speed := 1 }

/-- Unfolding of azimuthDiff with its two sequential corrections spelled out. -/
lemma azimuthDiff_def (pi t c : R) :
    azimuthDiff pi t c =
      if (if t - c > pi then t - c - pi * 2 else t - c) < -pi
      then (if t - c > pi then t - c - pi * 2 else t - c) + pi * 2
      else (if t - c > pi then t - c - pi * 2 else t - c) := rfl

/-- The clamped hand scale never goes below 0.3. -/
lemma normalizedScale_ge (handScale : R) : (0.3 : R) ≤ normalizedScale handScale :=
  le_max_left _ _

/-- The clamped hand scale never goes above 2.5. -/
lemma normalizedScale_le (handScale : R) : normalizedScale handScale ≤ 2.5 :=
  max_le (by norm_num) (min_le_left _ _)

/-- The clamped remapped y never goes below 0. -/
lemma clampedY_ge (y : R) : (0 : R) ≤ clampedY y := le_max_left _ _

/-- The clamped remapped y never goes above 1. -/
lemma clampedY_le (y : R) : clampedY y ≤ 1 :=
  max_le (by norm_num) (min_le_left _ _)

/-- C1: when the gesture sample has detected = false, the useFrame body of
Experience.tsx is skipped entirely, so the orbital state (azimuth, polar,
distance), the derived camera position and the constant look-at target of the
next frame all coincide exactly with those of the previous frame, whatever
stale x and y the sample carries. -/
theorem freeze_holds_camera_pose (s : CameraState ℝ) (hand : HandSample ℝ)
    (handScale delta : ℝ) (h : hand.detected = false) :
    experienceStep Real.pi s hand handScale delta = s ∧
    cameraPosition Real.sin Real.cos (experienceStep Real.pi s hand handScale delta) =
      cameraPosition Real.sin Real.cos s ∧
    (lookAtTarget : Vec3 ℝ) = lookAtTarget := by
  have hstep : experienceStep Real.pi s hand handScale delta = s := by
    simp [experienceStep, h]
  exact ⟨hstep, by rw [hstep], rfl⟩

/-- Witness for C1 at a concrete undetected sample with stale coordinates. -/
theorem freeze_holds_camera_pose_witness :
    ({ x := 0.7, y := 0.9, detected := false } : HandSample ℝ).detected = false ∧
    experienceStep Real.pi { azimuth := 1, polar := 1, distance := 20 }
        { x := 0.7, y := 0.9, detected := false } 1.3 0.016 =
      { azimuth := 1, polar := 1, distance := 20 } :=
  ⟨rfl, (freeze_holds_camera_pose { azimuth := 1, polar := 1, distance := 20 }
    { x := 0.7, y := 0.9, detected := false } 1.3 0.016 rfl).1⟩

/-- C2 counterexample: the per-frame update does not clamp the x component of
the hand position.  With the same state, y, hand scale and delta, the frame
produced from the out-of-range x = 2 differs from the frame produced from the
clamped value max 0 (min 1 2): the unclamped target azimuth (2 - 0.5)*pi*3
reaches the state, so x is used raw, contradicting the claim that the update
applies clamping to the position component x. -/
theorem x_not_clamped_counterexample :
    experienceStep Real.pi { azimuth := 0, polar := Real.pi / 3, distance := 20 }
        { x := 2, y := 0.5, detected := true } 1 (1 / 8) ≠
      experienceStep Real.pi { azimuth := 0, polar := Real.pi / 3, distance := 20 }
        { x := max 0 (min 1 2), y := 0.5, detected := true } 1 (1 / 8) := by
  have hpi := Real.pi_pos
  have h2 : azimuthDiff Real.pi (targetAzimuth Real.pi 2) 0 = 2.5 * Real.pi := by
    have hin : ((2 : ℝ) - 0.5) * Real.pi * 3 - 0 > Real.pi := by nlinarith
    have hout : ¬(((2 : ℝ) - 0.5) * Real.pi * 3 - 0 - Real.pi * 2 < -Real.pi) := by
      push_neg
      nlinarith
    show azimuthDiff Real.pi ((2 - 0.5) * Real.pi * 3) 0 = 2.5 * Real.pi
    rw [azimuthDiff_def, if_pos hin, if_neg hout]
    ring
  have h1 : azimuthDiff Real.pi (targetAzimuth Real.pi 1) 0 = -(0.5 * Real.pi) := by
    have hin : ((1 : ℝ) - 0.5) * Real.pi * 3 - 0 > Real.pi := by nlinarith
    have hout : ¬(((1 : ℝ) - 0.5) * Real.pi * 3 - 0 - Real.pi * 2 < -Real.pi) := by
      push_neg
      nlinarith
    show azimuthDiff Real.pi ((1 - 0.5) * Real.pi * 3) 0 = -(0.5 * Real.pi)
    rw [azimuthDiff_def, if_pos hin, if_neg hout]
    ring
  intro hcontra
  have hEq := congrArg CameraState.azimuth hcontra
  simp [experienceStep, h1, h2, lerpSpeed] at hEq
  nlinarith [hEq]

/-- C2 amended: the per-frame update is a total function of its numeric
inputs that clamps the hand scale to [0.3, 2.5] and the remapped y to [0, 1]
before use; the x component, however, is fed into the target azimuth
unclamped.  No input is rejected and no error condition exists. -/
theorem clamping_total_amended (handScale y : ℝ) :
    0.3 ≤ normalizedScale handScale ∧ normalizedScale handScale ≤ 2.5 ∧
    0 ≤ clampedY y ∧ clampedY y ≤ 1 :=
  ⟨normalizedScale_ge handScale, normalizedScale_le handScale,
    clampedY_ge y, clampedY_le y⟩

/-- C6: the placement generator returns one complete record per uploaded
photo — exactly count records for a count-element photo list — and the empty
list for an empty input, with no error path (it is a total function). -/
theorem placement_count_contract (rand : ℕ → ℝ) (photos : List String) :
    (photoData Real.pi Real.sin Real.cos rand photos).length = photos.length ∧
    photoData Real.pi Real.sin Real.cos rand [] = [] := by
  constructor
  · unfold photoData
    split_ifs with h
    · simp [h]
    · simp
  · rfl

/-- C9: a larger hand scale never increases the target camera distance and
never decreases the derived photo scale — the coupling is inverse monotone. -/
theorem inverse_monotone_coupling (s1 s2 : ℝ) (h : s1 ≤ s2) :
    targetDistance s2 ≤ targetDistance s1 ∧ photoScale s1 ≤ photoScale s2 := by
  have hm : normalizedScale s1 ≤ normalizedScale s2 :=
    max_le_max le_rfl (min_le_min le_rfl h)
  have e1 : ∀ t : ℝ, targetDistance t = 33 - 10 * normalizedScale t := by
    intro t
    unfold targetDistance maxDistance minDistance
    ring
  have e2 : ∀ t : ℝ, photoScale t = 0.8 + (normalizedScale t - 0.3) * (6 / 11) := by
    intro t
    unfold photoScale minPhotoScale maxPhotoScale
    ring
  rw [e1, e1, e2, e2]
  constructor <;> linarith [hm]

/-- Witness for C9 at the concrete pair 1 ≤ 2. -/
theorem inverse_monotone_coupling_witness :
    (1 : ℝ) ≤ 2 ∧ targetDistance (2 : ℝ) ≤ targetDistance 1 ∧
      photoScale (1 : ℝ) ≤ photoScale 2 :=
  ⟨by norm_num, inverse_monotone_coupling 1 2 (by norm_num)⟩

/-- With a current azimuth in the atan2 range [-pi, pi] and a target in
[-1.5 pi, 1.5 pi], the single pair of corrections of azimuthDiff lands the
difference inside [-pi, pi]. -/
lemma azimuthDiff_abs_le (t c : ℝ) (ht1 : -(1.5 * Real.pi) ≤ t) (ht2 : t ≤ 1.5 * Real.pi)
    (hc1 : -Real.pi ≤ c) (hc2 : c ≤ Real.pi) :
    |azimuthDiff Real.pi t c| ≤ Real.pi := by
  have hpi := Real.pi_pos
  rw [azimuthDiff_def, abs_le]
  constructor <;> split_ifs <;> linarith

/-- C3: for a current azimuth in [-pi, pi] (the range of the atan2-based
getAzimuthalAngle the frame reads its current angle from) and a target
azimuth arising from a gesture x in [0, 1], the applied per-frame angular
change, the wrapped difference scaled by delta times the lerp rate with
delta * rate at most 1, never exceeds pi in magnitude; moreover at current
azimuth 3.0 and target -3.0 the wrapped difference is 2 pi - 6, which lies
strictly between 0.283 and 0.284, not -6. -/
theorem azimuth_wrap_bounded :
    (∀ x cur delta : ℝ, 0 ≤ x → x ≤ 1 → -Real.pi ≤ cur → cur ≤ Real.pi →
      0 ≤ delta → delta * lerpSpeed ≤ 1 →
      |azimuthDiff Real.pi (targetAzimuth Real.pi x) cur * delta * lerpSpeed| ≤ Real.pi) ∧
    azimuthDiff Real.pi (-3) 3 = 2 * Real.pi - 6 ∧
    0.283 < 2 * Real.pi - 6 ∧ 2 * Real.pi - 6 < 0.284 := by
  refine ⟨?_, ?_, ?_, ?_⟩
  · intro x cur delta hx0 hx1 hc1 hc2 hd0 hd1
    have hpi := Real.pi_pos
    have hx0p : 0 ≤ x * Real.pi := mul_nonneg hx0 hpi.le
    have hx1p : x * Real.pi ≤ 1 * Real.pi := mul_le_mul_of_nonneg_right hx1 hpi.le
    have ht1 : -(1.5 * Real.pi) ≤ targetAzimuth Real.pi x := by
      unfold targetAzimuth
      nlinarith
    have ht2 : targetAzimuth Real.pi x ≤ 1.5 * Real.pi := by
      unfold targetAzimuth
      nlinarith
    have habs := azimuthDiff_abs_le _ cur ht1 ht2 hc1 hc2
    rw [lerpSpeed] at hd1 ⊢
    rw [abs_mul, abs_mul, abs_of_nonneg hd0, show |(8 : ℝ)| = 8 by norm_num]
    nlinarith [abs_nonneg (azimuthDiff Real.pi (targetAzimuth Real.pi x) cur)]
  · have hlt : Real.pi < 6 := by linarith [Real.pi_lt_d2]
    have hin : ¬((-3 : ℝ) - 3 > Real.pi) := by
      push_neg
      linarith [Real.pi_pos]
    have hout : (-3 : ℝ) - 3 < -Real.pi := by linarith
    rw [azimuthDiff_def, if_neg hin, if_pos hout]
    ring
  · linarith [Real.pi_gt_d6]
  · linarith [Real.pi_lt_d6]

/-- Witness for C3 at x = 1, current azimuth 0, delta = 1/8. -/
theorem azimuth_wrap_bounded_witness :
    |azimuthDiff Real.pi (targetAzimuth Real.pi 1) 0 * (1 / 8) * lerpSpeed| ≤ Real.pi :=
  azimuth_wrap_bounded.1 1 0 (1 / 8) (by norm_num) (by norm_num)
    (by linarith [Real.pi_pos]) (by linarith [Real.pi_pos]) (by norm_num)
    (by rw [lerpSpeed]; norm_num)

/-- C5: the formed position of object i of count is exactly the cone-spiral
point with normalized height h = 0.2 + (i/count)*0.6 scaled by the vertical
extent 9, radius r = 5*(1-h) + 0.8 and golden angle theta = i * 2.39996; for
count = 1 and i = 0 this evaluates to the literal position (4.8, 1.8, 0). -/
theorem formed_placement_formula (rand : ℕ → ℝ) (url : String) (count i : ℕ)
    (hc : 1 ≤ count) (hi : i < count) :
    (photoDataEntry Real.pi Real.sin Real.cos rand count i url).targetPos =
      { x := (5 * (1 - (0.2 + ((i : ℝ) / (count : ℝ)) * 0.6)) + 0.8) *
            Real.cos ((i : ℝ) * 2.39996)
        y := (0.2 + ((i : ℝ) / (count : ℝ)) * 0.6) * 9
        z := (5 * (1 - (0.2 + ((i : ℝ) / (count : ℝ)) * 0.6)) + 0.8) *
            Real.sin ((i : ℝ) * 2.39996) } ∧
    (photoDataEntry Real.pi Real.sin Real.cos rand 1 0 url).targetPos =
      { x := 4.8, y := 1.8, z := 0 } := by
  constructor
  · ext <;> simp only [photoDataEntry] <;> norm_num
  · ext <;> simp [photoDataEntry] <;> norm_num

/-- Witness for C5 at the concrete input count = 1, i = 0. -/
theorem formed_placement_formula_witness :
    (1 : ℕ) ≤ 1 ∧ 0 < 1 ∧
    (photoDataEntry Real.pi Real.sin Real.cos (fun _ => 0) 1 0 "").targetPos =
      { x := 4.8, y := 1.8, z := 0 } :=
  ⟨le_refl 1, Nat.one_pos,
    (formed_placement_formula (fun _ => 0) "" 1 0 (le_refl 1) Nat.one_pos).2⟩

/-- C7: two distinct indices below count receive distinct formed positions
(their heights on the cone differ), and their (r, theta) pairs under the
golden-angle rule differ as well. -/
theorem formed_positions_unique (rand : ℕ → ℝ) (u v : String) (count i j : ℕ)
    (hi : i < count) (hj : j < count) (hij : i ≠ j) :
    (photoDataEntry Real.pi Real.sin Real.cos rand count i u).targetPos ≠
      (photoDataEntry Real.pi Real.sin Real.cos rand count j v).targetPos ∧
    ((5 * (1 - (0.2 + ((i : ℝ) / (count : ℝ)) * 0.6)) + 0.8, (i : ℝ) * 2.39996) : ℝ × ℝ) ≠
      (5 * (1 - (0.2 + ((j : ℝ) / (count : ℝ)) * 0.6)) + 0.8, (j : ℝ) * 2.39996) := by
  have h0 : 0 < count := lt_of_le_of_lt (Nat.zero_le i) hi
  have hc : (0 : ℝ) < (count : ℝ) := by exact_mod_cast h0
  have hije : (i : ℝ) ≠ (j : ℝ) := by exact_mod_cast hij
  have hdiv : (i : ℝ) / (count : ℝ) ≠ (j : ℝ) / (count : ℝ) := by
    intro hdd
    apply hije
    field_simp [hc.ne'] at hdd
    exact_mod_cast hdd
  constructor
  · intro heq
    have hy := congrArg Vec3.y heq
    simp only [photoDataEntry] at hy
    exact hdiv (by linarith)
  · intro heq
    have hsnd := congrArg Prod.snd heq
    simp only at hsnd
    exact hije (mul_right_cancel₀ (by norm_num) hsnd)

/-- Witness for C7 at count = 2, i = 0, j = 1. -/
theorem formed_positions_unique_witness :
    0 < 2 ∧ 1 < 2 ∧ (0 : ℕ) ≠ 1 ∧
    (photoDataEntry Real.pi Real.sin Real.cos (fun _ => 0) 2 0 "a").targetPos ≠
      (photoDataEntry Real.pi Real.sin Real.cos (fun _ => 0) 2 1 "b").targetPos :=
  ⟨Nat.zero_lt_two, Nat.one_lt_two, by decide,
    (formed_positions_unique (fun _ => 0) "a" "b" 2 0 1 Nat.zero_lt_two Nat.one_lt_two
      (by decide)).1⟩

/-- The record at index i of the generated list is the entry built for i. -/
lemma photoData_getD (rand : ℕ → ℝ) (photos : List String) (dflt : PhotoData ℝ)
    (i : ℕ) (h : i < photos.length) :
    (photoData Real.pi Real.sin Real.cos rand photos).getD i dflt =
      photoDataEntry Real.pi Real.sin Real.cos rand photos.length i (photos.getD i "") := by
  unfold photoData
  rw [if_neg (by omega)]
  rw [List.getD_eq_getElem?_getD]
  simp [h]

/-- C10: for every input photo list and every index i below its length, the
generated record at position i carries id = i and the i-th url of the input,
so the generator preserves the order and pairing of the source photos. -/
theorem input_order_preserved (rand : ℕ → ℝ) (photos : List String)
    (dflt : PhotoData ℝ) (i : ℕ) (h : i < photos.length) :
    ((photoData Real.pi Real.sin Real.cos rand photos).getD i dflt).id = i ∧
    ((photoData Real.pi Real.sin Real.cos rand photos).getD i dflt).url =
      photos.getD i "" := by
  rw [photoData_getD rand photos dflt i h]
  exact ⟨rfl, rfl⟩

/-- The invariant claimed for the orbital state: polar within
[minPolar, maxPolar] and distance within [minDistance, maxDistance]. -/
def stateInBounds (s : CameraState ℝ) : Prop :=
  minPolar Real.pi ≤ s.polar ∧ s.polar ≤ maxPolar Real.pi ∧
  minDistance ≤ s.distance ∧ s.distance ≤ maxDistance

/-- The target polar angle is interpolated from the clamped y, so it stays
between minPolar and maxPolar. -/
lemma targetPolar_mem (y : ℝ) :
    minPolar Real.pi ≤ targetPolar Real.pi y ∧ targetPolar Real.pi y ≤ maxPolar Real.pi := by
  have h0 := clampedY_ge (R := ℝ) y
  have h1 := clampedY_le (R := ℝ) y
  have hpi := Real.pi_pos
  have hd : (0 : ℝ) ≤ maxPolar Real.pi - minPolar Real.pi := by
    unfold maxPolar minPolar
    have h18 : Real.pi / 1.8 = Real.pi * (5 / 9) := by ring
    rw [h18]
    linarith
  unfold targetPolar
  constructor
  · nlinarith [mul_nonneg h0 hd]
  · nlinarith [mul_le_mul_of_nonneg_right h1 hd]

/-- The target distance is the inverse affine image of the clamped hand
scale, written without the division. -/
lemma targetDistance_eq (handScale : ℝ) :
    targetDistance handScale = 33 - 10 * normalizedScale handScale := by
  unfold targetDistance maxDistance minDistance
  ring

/-- The target distance stays between minDistance and maxDistance. -/
lemma targetDistance_mem (handScale : ℝ) :
    minDistance ≤ targetDistance handScale ∧ targetDistance handScale ≤ maxDistance := by
  have h0 := normalizedScale_ge (R := ℝ) handScale
  have h1 := normalizedScale_le (R := ℝ) handScale
  rw [targetDistance_eq]
  unfold minDistance maxDistance
  constructor <;> linarith

/-- A single frame with a non-negative delta satisfying delta * lerpSpeed ≤ 1
keeps the orbital state inside its claimed bounds. -/
lemma experienceStep_preserves (s : CameraState ℝ) (hand : HandSample ℝ)
    (handScale delta : ℝ) (hd0 : 0 ≤ delta) (hd1 : delta * lerpSpeed ≤ 1)
    (h : stateInBounds s) :
    stateInBounds (experienceStep Real.pi s hand handScale delta) := by
  rw [lerpSpeed] at hd1
  unfold experienceStep
  cases hdet : hand.detected
  · simpa using h
  · obtain ⟨hp1, hp2, hq1, hq2⟩ := h
    obtain ⟨ht1, ht2⟩ := targetPolar_mem hand.y
    obtain ⟨hg1, hg2⟩ := targetDistance_mem handScale
    have hd8a : (0 : ℝ) ≤ delta * 8 := mul_nonneg hd0 (by norm_num)
    have hd5a : (0 : ℝ) ≤ delta * 5 := mul_nonneg hd0 (by norm_num)
    have hd5b : delta * 5 ≤ 1 := by linarith
    simp only [if_true, lerpSpeed, distanceLerpSpeed]
    refine ⟨?_, ?_, ?_, ?_⟩
    · show minPolar Real.pi ≤ s.polar + (targetPolar Real.pi hand.y - s.polar) * delta * 8
      nlinarith [mul_nonneg (sub_nonneg.mpr ht1) hd8a,
        mul_nonneg (sub_nonneg.mpr hp1) (by linarith : (0 : ℝ) ≤ 1 - delta * 8)]
    · show s.polar + (targetPolar Real.pi hand.y - s.polar) * delta * 8 ≤ maxPolar Real.pi
      nlinarith [mul_nonneg (sub_nonneg.mpr ht2) hd8a,
        mul_nonneg (sub_nonneg.mpr hp2) (by linarith : (0 : ℝ) ≤ 1 - delta * 8)]
    · show minDistance ≤ s.distance + (targetDistance handScale - s.distance) * delta * 5
      nlinarith [mul_nonneg (sub_nonneg.mpr hg1) hd5a,
        mul_nonneg (sub_nonneg.mpr hq1) (by linarith : (0 : ℝ) ≤ 1 - delta * 5)]
    · show s.distance + (targetDistance handScale - s.distance) * delta * 5 ≤ maxDistance
      nlinarith [mul_nonneg (sub_nonneg.mpr hg2) hd5a,
        mul_nonneg (sub_nonneg.mpr hq2) (by linarith : (0 : ℝ) ≤ 1 - delta * 5)]

/-- Every frame sequence whose deltas satisfy the per-frame step bound keeps
the orbital state inside its claimed bounds. -/
lemma runFrames_preserves (frames : List (HandSample ℝ × ℝ × ℝ)) :
    ∀ s : CameraState ℝ, (∀ f ∈ frames, 0 ≤ f.2.2 ∧ f.2.2 * lerpSpeed ≤ 1) →
      stateInBounds s → stateInBounds (runFrames Real.pi s frames) := by
  induction frames with
  | nil =>
    intro s _ h
    exact h
  | cons f rest ih =>
    intro s hf h
    rw [runFrames]
    apply ih
    · intro g hg
      exact hf g (List.mem_cons_of_mem f hg)
    · exact experienceStep_preserves s f.1 f.2.1 f.2.2
        (hf f (List.mem_cons_self f rest)).1 (hf f (List.mem_cons_self f rest)).2 h

/-- C4 counterexample: with an unrestricted non-negative frame delta the
eased state does leave the claimed ranges.  From the in-bounds state with
distance 30, a single detected frame with hand scale 2.5 and delta = 1
(delta times the distance rate is 5, far above 1) drives the distance to
-80, outside [8, 30], so the invariant fails for arbitrary non-negative
deltas. -/
theorem bounds_counterexample_large_delta :
    stateInBounds { azimuth := 0, polar := Real.pi / 3, distance := 30 } ∧
    (0 : ℝ) ≤ 1 ∧
    (experienceStep Real.pi { azimuth := 0, polar := Real.pi / 3, distance := 30 }
        { x := 0.5, y := 0.5, detected := true } 2.5 1).distance = -80 ∧
    ¬ stateInBounds (experienceStep Real.pi { azimuth := 0, polar := Real.pi / 3, distance := 30 }
        { x := 0.5, y := 0.5, detected := true } 2.5 1) := by
  have hpi := Real.pi_pos
  have h18 : Real.pi / 1.8 = Real.pi * (5 / 9) := by ring
  have hstart : stateInBounds { azimuth := 0, polar := Real.pi / 3, distance := 30 } := by
    unfold stateInBounds minPolar maxPolar minDistance maxDistance
    refine ⟨?_, ?_, ?_, ?_⟩
    · show Real.pi / 4 ≤ Real.pi / 3
      linarith
    · show Real.pi / 3 ≤ Real.pi / 1.8
      rw [h18]
      linarith
    · show (8 : ℝ) ≤ 30
      norm_num
    · show (30 : ℝ) ≤ 30
      norm_num
  have ht : targetDistance (2.5 : ℝ) = 8 := by
    unfold targetDistance normalizedScale minDistance maxDistance
    norm_num
  have hdist : (experienceStep Real.pi { azimuth := 0, polar := Real.pi / 3, distance := 30 }
      { x := 0.5, y := 0.5, detected := true } 2.5 1).distance = -80 := by
    simp [experienceStep, ht, distanceLerpSpeed]
    norm_num
  refine ⟨hstart, by norm_num, hdist, ?_⟩
  intro hcontra
  have h8 := hcontra.2.2.1
  rw [hdist] at h8
  unfold minDistance at h8
  norm_num at h8

/-- C4 amended: with the per-frame step bounded (0 ≤ delta and
delta * lerpSpeed ≤ 1, the convexity condition the easing needs), every
frame sequence keeps the polar angle in [minPolar, maxPolar] and the
distance in [minDistance, maxDistance] from any in-bounds start; the derived
photo scale lies in [minPhotoScale, maxPhotoScale] for every hand scale,
unconditionally, because it is clamped before the affine map. -/
theorem bounds_invariant_amended :
    (∀ (frames : List (HandSample ℝ × ℝ × ℝ)) (s : CameraState ℝ),
      (∀ f ∈ frames, 0 ≤ f.2.2 ∧ f.2.2 * lerpSpeed ≤ 1) →
      stateInBounds s → stateInBounds (runFrames Real.pi s frames)) ∧
    (∀ handScale : ℝ,
      minPhotoScale ≤ photoScale handScale ∧ photoScale handScale ≤ maxPhotoScale) := by
  constructor
  · intro frames s hf h
    exact runFrames_preserves frames s hf h
  · intro handScale
    have h0 := normalizedScale_ge (R := ℝ) handScale
    have h1 := normalizedScale_le (R := ℝ) handScale
    have e2 : photoScale handScale
        = 0.8 + (normalizedScale handScale - 0.3) * (6 / 11) := by
      unfold photoScale minPhotoScale maxPhotoScale
      ring
    rw [e2]
    unfold minPhotoScale maxPhotoScale
    constructor <;> linarith

/-- Witness for C4 amended: one small-delta frame from an in-bounds state. -/
theorem bounds_invariant_amended_witness :
    (∀ f ∈ ([({ x := 0.5, y := 0.5, detected := true }, 1, 1 / 10)] :
        List (HandSample ℝ × ℝ × ℝ)), 0 ≤ f.2.2 ∧ f.2.2 * lerpSpeed ≤ 1) ∧
    stateInBounds { azimuth := 0, polar := Real.pi / 3, distance := 20 } ∧
    stateInBounds (runFrames Real.pi { azimuth := 0, polar := Real.pi / 3, distance := 20 }
      [({ x := 0.5, y := 0.5, detected := true }, 1, 1 / 10)]) := by
  have hpi := Real.pi_pos
  have hf : ∀ f ∈ ([({ x := 0.5, y := 0.5, detected := true }, 1, 1 / 10)] :
      List (HandSample ℝ × ℝ × ℝ)), 0 ≤ f.2.2 ∧ f.2.2 * lerpSpeed ≤ 1 := by
    intro f hmem
    rw [List.mem_singleton] at hmem
    subst hmem
    rw [lerpSpeed]
    norm_num
  have h18 : Real.pi / 1.8 = Real.pi * (5 / 9) := by ring
  have hs : stateInBounds { azimuth := 0, polar := Real.pi / 3, distance := 20 } := by
    unfold stateInBounds minPolar maxPolar minDistance maxDistance
    refine ⟨?_, ?_, ?_, ?_⟩
    · show Real.pi / 4 ≤ Real.pi / 3
      linarith
    · show Real.pi / 3 ≤ Real.pi / 1.8
      rw [h18]
      linarith
    · show (8 : ℝ) ≤ 20
      norm_num
    · show (20 : ℝ) ≤ 30
      norm_num
  exact ⟨hf, hs, bounds_invariant_amended.1 _ _ hf hs⟩

/-- The easing recurrence in closed form: after n frames with step s, each
coordinate of the distance to the selected target is scaled by (1 - s)^n. -/
lemma animateFrames_coord (mode : TreeMode) (d : PhotoData ℝ) (step : ℝ)
    (p : Vec3 ℝ) (n : ℕ) :
    (animateFrames mode d step p n).x - (selectTarget mode d).x
        = (p.x - (selectTarget mode d).x) * (1 - step) ^ n ∧
    (animateFrames mode d step p n).y - (selectTarget mode d).y
        = (p.y - (selectTarget mode d).y) * (1 - step) ^ n ∧
    (animateFrames mode d step p n).z - (selectTarget mode d).z
        = (p.z - (selectTarget mode d).z) * (1 - step) ^ n := by
  induction n with
  | zero => simp [animateFrames]
  | succ n ih =>
    obtain ⟨hx, hy, hz⟩ := ih
    simp only [animateFrames, lerpVec, lerpCoord]
    refine ⟨?_, ?_, ?_⟩
    · linear_combination (1 - step) * hx
    · linear_combination (1 - step) * hy
    · linear_combination (1 - step) * hz

/-- C8: with the mode fixed and a per-frame step delta * speed in (0, 2)
(in particular any actual frame delta small enough that the easing does not
overshoot past twice the distance), every object position converges: for
every epsilon there is a frame count past which every coordinate of the
rendered position is within epsilon of the mode-selected target, whatever
the initial position. -/
theorem convergence_to_target (mode : TreeMode) (d : PhotoData ℝ) (delta : ℝ)
    (p : Vec3 ℝ) (h0 : 0 < delta * d.speed) (h2 : delta * d.speed < 2)
    (ε : ℝ) (hε : 0 < ε) :
    ∃ N, ∀ n, N ≤ n →
      |(animateFrames mode d (delta * d.speed) p n).x - (selectTarget mode d).x| < ε ∧
      |(animateFrames mode d (delta * d.speed) p n).y - (selectTarget mode d).y| < ε ∧
      |(animateFrames mode d (delta * d.speed) p n).z - (selectTarget mode d).z| < ε := by
  set s := delta * d.speed with hs
  set t := selectTarget mode d with ht
  set q := |1 - s| with hq
  have hq0 : 0 ≤ q := abs_nonneg _
  have hq1 : q < 1 := by
    rw [hq, abs_lt]
    constructor <;> linarith
  set M := |p.x - t.x| + |p.y - t.y| + |p.z - t.z| + 1 with hM
  have hM0 : 0 < M := by positivity
  obtain ⟨N, hN⟩ := exists_pow_lt_of_lt_one (div_pos hε hM0) hq1
  refine ⟨N, fun n hn => ?_⟩
  have hpow : q ^ n ≤ q ^ N := pow_le_pow_of_le_one hq0 hq1.le hn
  have hqn0 : 0 ≤ q ^ n := pow_nonneg hq0 n
  have key : M * q ^ n < ε := by
    calc M * q ^ n ≤ M * q ^ N := mul_le_mul_of_nonneg_left hpow hM0.le
      _ < M * (ε / M) := mul_lt_mul_of_pos_left hN hM0
      _ = ε := by field_simp
  obtain ⟨hx, hy, hz⟩ := animateFrames_coord mode d s p n
  have habs : ∀ a : ℝ, |a| ≤ M - 1 + 1 → |a * (1 - s) ^ n| < ε := by
    intro a ha
    rw [abs_mul, abs_pow, ← hq]
    calc |a| * q ^ n ≤ M * q ^ n := mul_le_mul_of_nonneg_right (by linarith) hqn0
      _ < ε := key
  refine ⟨?_, ?_, ?_⟩
  · rw [hx]
    exact habs _ (by linarith [abs_nonneg (p.y - t.y), abs_nonneg (p.z - t.z)])
  · rw [hy]
    exact habs _ (by linarith [abs_nonneg (p.x - t.x), abs_nonneg (p.z - t.z)])
  · rw [hz]
    exact habs _ (by linarith [abs_nonneg (p.x - t.x), abs_nonneg (p.y - t.y)])

/-- Witness for C8 at the unit-speed object, delta 1/2, target the origin
and epsilon 1. -/
theorem convergence_to_target_witness :
    (0 : ℝ) < (1 / 2) * unitPhoto.speed ∧ (1 / 2 : ℝ) * unitPhoto.speed < 2 ∧
    (0 : ℝ) < 1 ∧
    ∃ N, ∀ n, N ≤ n →
      |(animateFrames TreeMode.FORMED unitPhoto ((1 / 2) * unitPhoto.speed)
          { x := 1, y := 2, z := 3 } n).x -
        (selectTarget TreeMode.FORMED unitPhoto).x| < 1 ∧
      |(animateFrames TreeMode.FORMED unitPhoto ((1 / 2) * unitPhoto.speed)
          { x := 1, y := 2, z := 3 } n).y -
        (selectTarget TreeMode.FORMED unitPhoto).y| < 1 ∧
      |(animateFrames TreeMode.FORMED unitPhoto ((1 / 2) * unitPhoto.speed)
          { x := 1, y := 2, z := 3 } n).z -
        (selectTarget TreeMode.FORMED unitPhoto).z| < 1 :=
  ⟨by norm_num [unitPhoto], by norm_num [unitPhoto], by norm_num,
    convergence_to_target TreeMode.FORMED unitPhoto (1 / 2) { x := 1, y := 2, z := 3 }
      (by norm_num [unitPhoto]) (by norm_num [unitPhoto]) 1 (by norm_num)⟩

/-- Witness for C10 at the two-element list at index 1. -/
theorem input_order_preserved_witness :
    1 < (["a", "b"] : List String).length ∧
    ((photoData Real.pi Real.sin Real.cos (fun _ => 0) ["a", "b"]).getD 1
        { id := 0, url := "", chaosPos := { x := 0, y := 0, z := 0 },
          targetPos := { x := 0, y := 0, z := 0 }, speed := 0 }).id = 1 ∧
    ((photoData Real.pi Real.sin Real.cos (fun _ => 0) ["a", "b"]).getD 1
        { id := 0, url := "", chaosPos := { x := 0, y := 0, z := 0 },
          targetPos := { x := 0, y := 0, z := 0 }, speed := 0 }).url =
      (["a", "b"] : List String).getD 1 "" :=
  ⟨by decide,
    input_order_preserved (fun _ => 0) ["a", "b"]
      { id := 0, url := "", chaosPos := { x := 0, y := 0, z := 0 },
        targetPos := { x := 0, y := 0, z := 0 }, speed := 0 } 1 (by decide)⟩

end Tree1205
